import Mathlib

/-!
Verification of the PAR/REC header module (`nibabel/parrec.py`).

The development shallowly embeds the module's data model and operations:

* The volume-grouping primitives (`occurrence_index`, `is_volume_full`) and
  the Euler-angle helper `euler2mat` are not part of the source tree under
  verification (only the later test suite references them); they are
  modelled from the specification, as marked on each definition.
* Everything else (`_get_unique_image_prop`, `get_voxel_size`, `_get_zooms`,
  `get_data_shape_in_file`, `__init__`'s dtype lookup, `get_data_scaling`,
  `get_slice_orientation` with its memo, `get_affine`, `from_header`/`copy`)
  is translated from the source.  Machine floats are embedded as exact
  rationals; the trigonometric evaluations `cos(ang_rad i)`, `sin(ang_rad i)`
  that the source obtains with `np.cos`/`np.sin` are carried as rational
  inputs so that the geometry is executable.
-/

deriving instance DecidableEq for Except

attribute [local semireducible] Rat.add Rat.mul Rat.inv Rat.sub Rat.ofScientific

/-- Error kinds of the spec-modelled volume machinery (spec section 7). -/
inductive SpecErr
  | outOfRangeSliceNumber
  | structuralInconsistency
deriving DecidableEq

/-- Occurrence-count accumulator update: one more occurrence of `s` seen. -/
def occUpd (acc : Nat → Nat) (s : Nat) : Nat → Nat :=
  fun t => if t = s then acc s + 1 else acc t

/-- Walk a sequence, tagging each value with the count of its prior
occurrences (the occurrence index). -/
def tagAux (acc : Nat → Nat) : List Nat → List (Nat × Nat)
  | [] => []
  | s :: rest => (s, acc s) :: tagAux (occUpd acc s) rest

/-- Modelled from the spec: `occurrence_index` pairs (spec section 4.3).  Each
position of `seq` is paired with the count of prior occurrences of that
identical value. -/
def occTags (seq : List Nat) : List (Nat × Nat) :=
  tagAux (fun _ => 0) seq

/-- Modelled from the spec: `occurrence_index(seq)` (spec section 4.3),
the per-position count of prior occurrences, used as a volume index. -/
def occurrence_index (seq : List Nat) : List Nat :=
  (occTags seq).map Prod.snd

/-- The slice numbers assigned to volume `j`: the subsequence of `seq` whose
occurrence index is `j`. -/
def volGroup (seq : List Nat) (j : Nat) : List Nat :=
  (((occTags seq).filter (fun p => p.2 == j)).map Prod.fst)

/-- Number of volume groups present in the sequence (number of distinct
occurrence indices). -/
def numVols (seq : List Nat) : Nat :=
  ((occurrence_index seq).dedup).length

/-- Completeness of volume `j`: the declared slice-number range
`{slice_min, …, slice_min + slice_count - 1}` is a subset of the group's
values. -/
def volFull (seq : List Nat) (slice_count slice_min j : Nat) : Bool :=
  (List.range slice_count).all (fun t => decide ((slice_min + t) ∈ volGroup seq j))

/-- Modelled from the spec: `is_volume_full(seq, slice_count, slice_min)`
(spec section 4.3).  Fails with a range error if any value of `seq` is
strictly below `slice_min`; otherwise returns, per position, whether that
position's volume group covers the declared slice-number range.  Values above
the declared maximum are tolerated. -/
def is_volume_full (seq : List Nat) (slice_count slice_min : Nat) :
    Except SpecErr (List Bool) :=
  if seq.any (fun v => decide (v < slice_min)) then
    Except.error SpecErr.outOfRangeSliceNumber
  else
    Except.ok ((occurrence_index seq).map (fun j => volFull seq slice_count slice_min j))

/-- C1: `is_volume_full` raises its range error exactly when some value of the
sequence is strictly less than `slice_min` (so never solely because a value
exceeds `slice_min + slice_count - 1`), and the four concrete examples behave
as stated: `[3,2,1]` with 3 slices is full, with 4 slices not full,
`[3,2,0,1]` with 3 slices and `slice_min = 0` is full, and `[2,1,0]` with the
default `slice_min = 1` raises the range error. -/
theorem c1_is_volume_full :
    (∀ (seq : List Nat) (slice_count slice_min : Nat),
      is_volume_full seq slice_count slice_min =
          Except.error SpecErr.outOfRangeSliceNumber ↔ ∃ v ∈ seq, v < slice_min) ∧
    is_volume_full [3, 2, 1] 3 1 = Except.ok [true, true, true] ∧
    is_volume_full [3, 2, 1] 4 1 = Except.ok [false, false, false] ∧
    is_volume_full [3, 2, 0, 1] 3 0 = Except.ok [true, true, true, true] ∧
    is_volume_full [2, 1, 0] 2 1 = Except.error SpecErr.outOfRangeSliceNumber := by
  refine ⟨?_, by decide, by decide, by decide, by decide⟩
  intro seq c m
  have hany : (seq.any (fun v => decide (v < m)) = true) ↔ ∃ v ∈ seq, v < m := by
    simp [List.any_eq_true]
  by_cases hc : seq.any (fun v => decide (v < m)) = true
  · simp [is_volume_full, hc, hany.mp hc]
  · have hno : ¬ ∃ v ∈ seq, v < m := fun hx => hc (hany.mpr hx)
    simp [is_volume_full, hc, hno]

/-- Python-level error kinds raised by the embedded source code. -/
inductive Err
  | parrecError
  | keyError
  | valueError
  | indexError
  | assertionError
deriving DecidableEq

/-- Embedding of `np.unique`: the sorted list of distinct values. -/
def npUnique {α : Type} [LinearOrder α] (l : List α) : List α :=
  List.insertionSort (fun a b => a ≤ b) l.dedup

/-- Embedding of `PARRECHeader._get_unique_image_prop` on a scalar column
(`len(prop.shape) == 1`): `np.unique(prop)` must be a single value, otherwise
a `PARRECError` ("Varying ... in image sequence") is raised. -/
def uniqueScalarProp {α : Type} [LinearOrder α] (col : List α) : Except Err α :=
  match npUnique col with
  | [x] => Except.ok x
  | _ => Except.error Err.parrecError

/-- Embedding of `PARRECHeader._get_unique_image_prop` on an array column
(`len(prop.shape) == 2`).  The source iterates `i in range(len(prop.shape))`,
i.e. over the FIRST TWO RECORDS `prop[0]`, `prop[1]` (an `IndexError` when
fewer than two records exist), takes `np.unique` of each record's array, and
demands that each has a single distinct element; it returns
`[uprops[0][0], uprops[1][0]]`. -/
def uniqueArrayProp {α : Type} [LinearOrder α] (col : List (List α)) :
    Except Err (α × α) :=
  match col with
  | [] => Except.error Err.indexError
  | [_] => Except.error Err.indexError
  | r0 :: r1 :: _ =>
    match npUnique r0, npUnique r1 with
    | [a], [b] => Except.ok (a, b)
    | _, _ => Except.error Err.parrecError

/-- General-information mapping of a PAR header (the fields the embedded
methods read).  `angCos i`/`angSin i` carry the real values
`cos(ang_rad i)`/`sin(ang_rad i)` of the negated, radian-converted
`angulation` entries (order `[ap, fh, rl]`), which the source computes with
`np.cos`/`np.sin`. -/
structure GeneralInfo where
  max_slices : Nat
  max_dynamics : Nat
  max_gradient_orient : Nat
  max_diffusion_values : Nat
  repetition_time : ℚ
  angCos : Fin 3 → ℚ
  angSin : Fin 3 → ℚ
  fov : Fin 3 → ℚ
  off_center : Fin 3 → ℚ
deriving DecidableEq

/-- The image-definition table, by column (one list entry per slice record). -/
structure ImageDefs where
  slice_number : List Nat
  dynamic_scan_number : List Nat
  image_pixel_size : List Nat
  recon_resolution : List (List Nat)
  rescale_intercept : List ℚ
  rescale_slope : List ℚ
  scale_slope : List ℚ
  image_angulation : List (List ℚ)
  slice_thickness : List ℚ
  slice_gap : List ℚ
  pixel_spacing : List (List ℚ)
  slice_orientation : List Nat
deriving DecidableEq

/-- Embedding of `PARRECHeader.get_voxel_size`. -/
def get_voxel_size (defs : ImageDefs) : Except Err (Fin 3 → ℚ) := do
  let st ← uniqueScalarProp defs.slice_thickness
  let vip ← uniqueArrayProp defs.pixel_spacing
  Except.ok ![vip.1, vip.2, st]

/-- Embedding of `PARRECHeader.get_ndim`. -/
def get_ndim (info : GeneralInfo) : Nat :=
  if 1 < info.max_dynamics ∨ 1 < info.max_gradient_orient then 4 else 3

/-- Embedding of `PARRECHeader._get_zooms`: spatial zooms are the voxel size
with the inter-slice gap added on the third axis; a fourth temporal zoom is
the repetition time in seconds when there are multiple dynamics. -/
def get_zooms_calc (info : GeneralInfo) (defs : ImageDefs) :
    Except Err (List ℚ) := do
  let sg ← uniqueScalarProp defs.slice_gap
  let vox ← get_voxel_size defs
  let zooms := [vox 0, vox 1, vox 2 + sg] ++
    List.replicate (get_ndim info - 3) (1 : ℚ)
  Except.ok (if 3 < zooms.length ∧ 1 < info.max_dynamics then
    zooms.set 3 (info.repetition_time / 1000) else zooms)

/-- Embedding of `PARRECHeader.get_data_shape_in_file`. -/
def get_data_shape_in_file (info : GeneralInfo) (defs : ImageDefs) :
    Except Err (List Nat) := do
  let ndynamics := (npUnique defs.dynamic_scan_number).length
  let ndtivolumes := (info.max_diffusion_values - 1) * info.max_gradient_orient
  let nslices := (npUnique defs.slice_number).length
  if nslices ≠ info.max_slices then
    Except.error Err.parrecError
  else do
    let ir ← uniqueArrayProp defs.recon_resolution
    if 1 < ndynamics then Except.ok [ir.1, ir.2, nslices, ndynamics]
    else if 1 < ndtivolumes then Except.ok [ir.1, ir.2, nslices, ndtivolumes]
    else Except.ok [ir.1, ir.2, nslices]

/-- Embedding of the `np.typeDict['int' + str(bits)]` lookup used by
`PARRECHeader.__init__`: numpy's type dictionary has the signed integer
entries `int8`/`int16`/`int32`/`int64` and, in this module's numpy era, the
`int0` alias of `intp` (installed by
`numpy.core.numerictypes._set_up_aliases`); any other suffix raises a
`KeyError`. -/
def npTypeDictInt (bits : Nat) : Option String :=
  if bits = 0 then
    some ("intp")
  else if bits = 8 ∨ bits = 16 ∨ bits = 32 ∨ bits = 64 then
    some ("int" ++ toString bits)
  else
    none

/-- The basic header state charged by `Header.__init__`. -/
structure HeaderData where
  data_dtype : String
  shape : List Nat
  zooms : List ℚ
deriving DecidableEq

/-- Embedding of `PARRECHeader.__init__`: derive the element dtype from the
unique `image pixel size` via the numpy type dictionary, then charge the base
class with the data shape and zooms. -/
def PARRECHeader_init (info : GeneralInfo) (defs : ImageDefs) :
    Except Err HeaderData := do
  let psize ← uniqueScalarProp defs.image_pixel_size
  let dty ← match npTypeDictInt psize with
    | some d => Except.ok d
    | none => Except.error Err.keyError
  let shape ← get_data_shape_in_file info defs
  let zooms ← get_zooms_calc info defs
  Except.ok ⟨dty, shape, zooms⟩

/-- Embedding of `PARRECHeader.get_data_scaling`: resolve the three unique
whole-series scale factors and combine them according to the requested
convention. -/
def get_data_scaling (defs : ImageDefs) (method : String) :
    Except Err (ℚ × ℚ) := do
  let scale_slope ← uniqueScalarProp defs.scale_slope
  let rescale_slope ← uniqueScalarProp defs.rescale_slope
  let rescale_intercept ← uniqueScalarProp defs.rescale_intercept
  if method = "dv" then
    Except.ok (rescale_slope, rescale_intercept)
  else if method = "fp" then
    Except.ok (1 / scale_slope,
      rescale_intercept / (rescale_slope * scale_slope))
  else
    Except.error Err.valueError

/-- Embedding of the `slice_orientation_codes` Recoder lookup: code 1 is
transversal, 2 is sagital, 3 is coronal; an unknown code raises a lookup
error. -/
def slice_orientation_label (code : Nat) : Except Err String :=
  if code = 1 then Except.ok ("transversal")
  else if code = 2 then Except.ok ("sagital")
  else if code = 3 then Except.ok ("coronal")
  else Except.error Err.keyError

/-- Uncached computation inside `PARRECHeader.get_slice_orientation`. -/
def compute_slice_orientation (defs : ImageDefs) : Except Err String := do
  let c ← uniqueScalarProp defs.slice_orientation
  slice_orientation_label c

/-- A constructed `PARRECHeader` instance: its two data attributes, the
`_slice_orientation` memo slot (initialized to `None` by `__init__`), and the
zooms charged into the `Header` base class at construction time. -/
structure HeaderState where
  general_info : GeneralInfo
  image_defs : ImageDefs
  slice_orientation_memo : Option String
  zooms : List ℚ
deriving DecidableEq

/-- Construct a `PARRECHeader` instance (see `PARRECHeader_init`), with the
`_slice_orientation` memo slot set to `None`. -/
def mk_header (info : GeneralInfo) (defs : ImageDefs) : Except Err HeaderState := do
  let hd ← PARRECHeader_init info defs
  Except.ok ⟨info, defs, none, hd.zooms⟩

/-- Embedding of `PARRECHeader.get_slice_orientation`: return the memoized
label when present, otherwise compute it and store it in the memo slot of the
(mutated) instance. -/
def get_slice_orientation (h : HeaderState) : Except Err (String × HeaderState) :=
  match h.slice_orientation_memo with
  | some v => Except.ok (v, h)
  | none =>
    match compute_slice_orientation h.image_defs with
    | Except.ok v => Except.ok (v, { h with slice_orientation_memo := some v })
    | Except.error e => Except.error e

/-- In-place reassignment of the `image_defs` attribute of an instance (the
memo slot and zooms are untouched, as in the source). -/
def set_image_defs (h : HeaderState) (d : ImageDefs) : HeaderState :=
  { h with image_defs := d }

/-- In-place reassignment of the `general_info` attribute of an instance. -/
def set_general_info (h : HeaderState) (g : GeneralInfo) : HeaderState :=
  { h with general_info := g }

/-- Square matrices embedded as plain functions (numpy arrays of shape
`(3, 3)` / `(4, 4)`), so that all geometry evaluates by kernel reduction. -/
abbrev Mat3 : Type := Fin 3 → Fin 3 → ℚ

abbrev Mat4 : Type := Fin 4 → Fin 4 → ℚ

/-- Matrix product of two 3x3 matrices, the dot products written out. -/
def mul3 (A B : Mat3) : Mat3 :=
  fun i j => A i 0 * B 0 j + A i 1 * B 1 j + A i 2 * B 2 j

/-- Matrix-vector product of a 3x3 matrix with a 3-vector. -/
def mulVec3 (A : Mat3) (v : Fin 3 → ℚ) : Fin 3 → ℚ :=
  fun i => A i 0 * v 0 + A i 1 * v 1 + A i 2 * v 2

/-- The diagonal matrix `np.diag(z)`. -/
def diag3 (z : Fin 3 → ℚ) : Mat3 :=
  fun i j => if i = j then z i else 0

/-- The 3x3 identity matrix. -/
def one3 : Mat3 :=
  fun i j => if i = j then 1 else 0

/-- Elementary rotation about the first (RL) axis, as a function of the
cosine/sine of the angle: the source's `rot_rl` matrix. -/
def rotX (c s : ℚ) : Mat3 :=
  ![![1, 0, 0], ![0, c, -s], ![0, s, c]]

/-- Elementary rotation about the second (AP) axis: the source's `rot_ap`. -/
def rotY (c s : ℚ) : Mat3 :=
  ![![c, 0, s], ![0, 1, 0], ![-s, 0, c]]

/-- Elementary rotation about the third (FH) axis: the source's `rot_fh`. -/
def rotZ (c s : ℚ) : Mat3 :=
  ![![c, -s, 0], ![s, c, 0], ![0, 0, 1]]

/-- Modelled from the spec: the Euler-angle helper `euler2mat(z, y, x)` from
the `eulerangles` module (not part of the source tree under verification),
which composes `Rz(z) * Ry(y) * Rx(x)` (spec section 4.5: the FH rotation,
then the AP rotation, then the RL rotation).  As with the explicit matrices,
it is a function of the cosine/sine values of its angle arguments. -/
def euler2mat (cz sz cy sy cx sx : ℚ) : Mat3 :=
  mul3 (mul3 (rotZ cz sz) (rotY cy sy)) (rotX cx sx)

/-- The source's `rot_r2agui = rot_rl * rot_ap * rot_fh` (angle order in
`ang_rad` is `[ap, fh, rl]`; `rot_rl` uses `ang_rad[2]`, `rot_ap` uses
`ang_rad[0]`, `rot_fh` uses `ang_rad[1]`). -/
def rot_r2agui (g : GeneralInfo) : Mat3 :=
  mul3 (mul3 (rotX (g.angCos 2) (g.angSin 2)) (rotY (g.angCos 0) (g.angSin 0)))
    (rotZ (g.angCos 1) (g.angSin 1))

/-- The source's `rot_nibabel = euler2mat(ang_rad[1], ang_rad[0], ang_rad[2])`. -/
def rot_nibabel (g : GeneralInfo) : Mat3 :=
  euler2mat (g.angCos 1) (g.angSin 1) (g.angCos 0) (g.angSin 0)
    (g.angCos 2) (g.angSin 2)

/-- Assemble the 4x4 affine from a 3x3 block and a translation column, as the
source does with `np.eye(4)`, `aff[:3,:3] = scaled`, `aff[:3,3] = offset`. -/
def mk_affine (m : Mat3) (t : Fin 3 → ℚ) : Mat4 :=
  fun i j =>
    if hi : (i : Nat) < 3 then
      if hj : (j : Nat) < 3 then m ⟨i, hi⟩ ⟨j, hj⟩ else t ⟨i, hi⟩
    else
      if (j : Nat) < 3 then 0 else 1

/-- The scanner iso-center offset added to the translation for
`origin='scanner'`: `off_center[[2,0,1]] * [-1,-1,0]` (the `(ap,fh,rl)`
vector reordered to `(rl,ap,fh)` and multiplied by `[-1,-1,0]`). -/
def iso_offset (g : GeneralInfo) : Fin 3 → ℚ :=
  ![-(g.off_center 2), -(g.off_center 0), 0]

/-- The shared part of `PARRECHeader.get_affine` before the `origin` branch:
checks the rotation-consistency assertion, resolves voxel size and slice
orientation, picks the orientation's axis-remap matrix and field-of-view
permutation, and produces the scaled 3x3 block, the field-of-view-centering
translation, and the (possibly memo-updated) instance. -/
def affine_core (h : HeaderState) :
    Except Err (Mat3 × (Fin 3 → ℚ) × HeaderState) := do
  if rot_r2agui h.general_info ≠ rot_nibabel h.general_info then
    Except.error Err.assertionError
  else do
    let fov := h.general_info.fov
    let voxsize ← get_voxel_size h.image_defs
    let so ← get_slice_orientation h
    let rp ←
      if so.1 = "sagital" then
        Except.ok ((![![0, 0, 1], ![-1, 0, 0], ![0, -1, 0]] : Mat3), fov)
      else if so.1 = "transversal" then
        Except.ok ((![![-1, 0, 0], ![0, -1, 0], ![0, 0, 1]] : Mat3),
          ![fov 2, fov 0, fov 1])
      else if so.1 = "coronal" then
        Except.ok ((![![-1, 0, 0], ![0, 0, -1], ![0, -1, 0]] : Mat3),
          ![fov 2, fov 1, fov 0])
      else
        Except.error Err.parrecError
    let rot := mul3 (rot_nibabel h.general_info) rp.1
    let fov_center_offset := mulVec3 rot (fun i => voxsize i / 2 - rp.2 i / 2)
    let scaled := mul3 rot (diag3 (fun i : Fin 3 => so.2.zooms.getD i 1))
    Except.ok (scaled, fov_center_offset, so.2)

/-- Embedding of `PARRECHeader.get_affine`: the shared core, then the
translation column is left at the field-of-view center for `origin='fov'` and
additionally offset by `iso_offset` for `origin='scanner'` (any other string
falls through the `if`/`elif` unchanged, like the source). -/
def get_affine (h : HeaderState) (origin : String) :
    Except Err (Mat4 × HeaderState) := do
  let core ← affine_core h
  if origin = "fov" then
    Except.ok (mk_affine core.1 core.2.1, core.2.2)
  else if origin = "scanner" then
    Except.ok (mk_affine core.1
      (fun i => core.2.1 i + iso_offset h.general_info i), core.2.2)
  else
    Except.ok (mk_affine core.1 core.2.1, core.2.2)

/-- A store of live header objects, so that aliasing between instances can be
expressed: each cell owns a `general_info` mapping and an `image_defs` table,
and a `PARRECHeader` object is a reference (index) into the store. -/
abbrev HeaderStore := List (GeneralInfo × ImageDefs)

/-- The possible non-`None` arguments of `PARRECHeader.from_header`: either a
genuine `PARRECHeader` instance (a store reference) or a header object of any
other exact type. -/
inductive FromHeaderArg
  | parrecRef (r : Nat)
  | otherHeader
deriving DecidableEq

/-- Embedding of `PARRECHeader.from_header` together with `PARRECHeader.copy`:
`None` raises a `PARRECError` ("from air"), a non-`PARRECHeader` header raises
a `PARRECError`, and a `PARRECHeader` is copied — `copy.deepcopy` of the
mapping and `.copy()` of the table are placed in a fresh store cell, and the
copy is reconstructed through `PARRECHeader.__init__` (which can itself
fail). -/
def from_header (st : HeaderStore) (arg : Option FromHeaderArg) :
    Except Err (HeaderStore × Nat) :=
  match arg with
  | none => Except.error Err.parrecError
  | some FromHeaderArg.otherHeader => Except.error Err.parrecError
  | some (FromHeaderArg.parrecRef r) =>
    match st[r]? with
    | none => Except.error Err.indexError
    | some cell =>
      match PARRECHeader_init cell.1 cell.2 with
      | Except.error e => Except.error e
      | Except.ok _ => Except.ok (st ++ [cell], st.length)

theorem except_bind_error {α β : Type} (e : Err) (f : α → Except Err β) :
    (Except.error e >>= f) = Except.error e := rfl

theorem except_bind_ok {α β : Type} (a : α) (f : α → Except Err β) :
    (Except.ok a >>= f) = f a := rfl

theorem npUnique_const {α : Type} [LinearOrder α] {l : List α} {v : α}
    (hne : l ≠ []) (hall : ∀ x ∈ l, x = v) : npUnique l = [v] := by
  have hd : l.dedup = [v] := by
    induction l with
    | nil => exact absurd rfl hne
    | cons a t ih =>
      have ha : a = v := hall a (by simp)
      by_cases ht : t = []
      · subst ht
        simp [ha]
      · have hdt : t.dedup = [v] := ih ht (fun x hx => hall x (by simp [hx]))
        have hmem : a ∈ t := by
          obtain ⟨b, hb⟩ := List.exists_mem_of_ne_nil t ht
          have hbv : b = v := hall b (by simp [hb])
          rw [ha, ← hbv]
          exact hb
        rw [List.dedup_cons_of_mem hmem, hdt]
  rw [npUnique, hd]
  simp

theorem uniqueScalarProp_const {α : Type} [LinearOrder α] {l : List α} {v : α}
    (hne : l ≠ []) (hall : ∀ x ∈ l, x = v) :
    uniqueScalarProp l = Except.ok v := by
  simp [uniqueScalarProp, npUnique_const hne hall]

theorem uniqueScalarProp_varying {α : Type} [LinearOrder α] {l : List α}
    {a b : α} (ha : a ∈ l) (hb : b ∈ l) (hab : a ≠ b) :
    uniqueScalarProp l = Except.error Err.parrecError := by
  have hma : a ∈ npUnique l := by
    rw [npUnique, (List.perm_insertionSort (fun x y => x ≤ y) l.dedup).mem_iff]
    exact List.mem_dedup.mpr ha
  have hmb : b ∈ npUnique l := by
    rw [npUnique, (List.perm_insertionSort (fun x y => x ≤ y) l.dedup).mem_iff]
    exact List.mem_dedup.mpr hb
  rcases hu : npUnique l with _ | ⟨x, _ | ⟨y, rest⟩⟩
  · rw [hu] at hma
    cases hma
  · rw [hu] at hma hmb
    simp at hma hmb
    exact absurd (hma.trans hmb.symm) hab
  · simp [uniqueScalarProp, hu]

theorem uniqueScalarProp_error {α : Type} [LinearOrder α] {l : List α} {e : Err}
    (h : uniqueScalarProp l = Except.error e) : e = Err.parrecError := by
  rw [uniqueScalarProp] at h
  rcases hu : npUnique l with _ | ⟨x, _ | ⟨y, rest⟩⟩ <;> rw [hu] at h <;>
    simp_all

/-- C5: whenever the per-slice scale fields are uniform across the table,
`get_data_scaling` with method `'dv'` returns the rescale slope and rescale
intercept and with method `'fp'` returns `1/scale_slope` and
`rescale_intercept / (rescale_slope * scale_slope)`. -/
theorem c5_data_scaling (defs : ImageDefs) (ss rs ri : ℚ)
    (h1 : defs.scale_slope ≠ []) (h2 : ∀ x ∈ defs.scale_slope, x = ss)
    (h3 : defs.rescale_slope ≠ []) (h4 : ∀ x ∈ defs.rescale_slope, x = rs)
    (h5 : defs.rescale_intercept ≠ [])
    (h6 : ∀ x ∈ defs.rescale_intercept, x = ri) :
    get_data_scaling defs "dv" = Except.ok (rs, ri) ∧
    get_data_scaling defs "fp" = Except.ok (1 / ss, ri / (rs * ss)) := by
  have e1 := uniqueScalarProp_const h1 h2
  have e2 := uniqueScalarProp_const h3 h4
  have e3 := uniqueScalarProp_const h5 h6
  constructor
  · simp [get_data_scaling, e1, e2, e3, except_bind_ok]
  · simp [get_data_scaling, e1, e2, e3, except_bind_ok]

/-- An image-definition table with uniform scaling (for the C5 witness). -/
def c5defs : ImageDefs :=
  ⟨[1, 2], [1, 1], [16, 16], [[64, 64], [64, 64]], [3, 3], [2, 2], [4, 4],
    [[0, 0, 0], [0, 0, 0]], [1, 1], [0, 0], [[1, 1], [1, 1]], [1, 1]⟩

/-- Witness for C5 at a concrete uniform table. -/
theorem c5_data_scaling_witness :
    get_data_scaling c5defs "dv" = Except.ok (2, 3) ∧
    get_data_scaling c5defs "fp" = Except.ok (1 / 4, 3 / (2 * 4)) :=
  c5_data_scaling c5defs 4 2 3 (by decide) (by decide) (by decide) (by decide)
    (by decide) (by decide)

/-- An image-definition table whose rescale slope varies across the two
records (for the C6 counterexample). -/
def c6defs : ImageDefs :=
  ⟨[1, 2], [1, 1], [16, 16], [[64, 64], [64, 64]], [3, 3], [1, 2], [4, 4],
    [[0, 0, 0], [0, 0, 0]], [1, 1], [0, 0], [[1, 1], [1, 1]], [1, 1]⟩

/-- C6 counterexample: with a legitimately varying per-slice rescale slope,
`get_data_scaling` does not succeed with per-slice arrays — it raises the
varying-property `PARRECError` coming from `_get_unique_image_prop`. -/
theorem c6_counterexample :
    get_data_scaling c6defs "dv" = Except.error Err.parrecError := by decide

/-- C6 (amended): when any of the per-slice scale fields — the scale slope,
the rescale slope, or the rescale intercept — varies across the slice
records, `get_data_scaling` raises the varying-property `PARRECError` in
every mode instead of returning per-slice arrays. -/
theorem c6_varying_scale_raises (defs : ImageDefs) (a b : ℚ) (method : String)
    (hvary : (a ∈ defs.scale_slope ∧ b ∈ defs.scale_slope) ∨
      (a ∈ defs.rescale_slope ∧ b ∈ defs.rescale_slope) ∨
      (a ∈ defs.rescale_intercept ∧ b ∈ defs.rescale_intercept))
    (hab : a ≠ b) :
    get_data_scaling defs method = Except.error Err.parrecError := by
  rcases hvary with ⟨ha, hb⟩ | ⟨ha, hb⟩ | ⟨ha, hb⟩
  · have hss := uniqueScalarProp_varying ha hb hab
    simp [get_data_scaling, hss, except_bind_error]
  · have hrs := uniqueScalarProp_varying ha hb hab
    rcases hss : uniqueScalarProp defs.scale_slope with e | v
    · have he := uniqueScalarProp_error hss
      subst he
      simp [get_data_scaling, hss, except_bind_error]
    · simp [get_data_scaling, hss, hrs, except_bind_ok, except_bind_error]
  · have hri := uniqueScalarProp_varying ha hb hab
    rcases hss : uniqueScalarProp defs.scale_slope with e | v
    · have he := uniqueScalarProp_error hss
      subst he
      simp [get_data_scaling, hss, except_bind_error]
    · rcases hrs : uniqueScalarProp defs.rescale_slope with e2 | v2
      · have he2 := uniqueScalarProp_error hrs
        subst he2
        simp [get_data_scaling, hss, hrs, except_bind_ok, except_bind_error]
      · simp [get_data_scaling, hss, hrs, hri, except_bind_ok,
          except_bind_error]

/-- Witness for the amended C6 at a concrete varying table. -/
theorem c6_varying_scale_raises_witness :
    get_data_scaling c6defs "fp" = Except.error Err.parrecError :=
  c6_varying_scale_raises c6defs 1 2 "fp"
    (Or.inr (Or.inl ⟨by decide, by decide⟩)) (by decide)

/-- C7: `_get_unique_image_prop` on an array field is claimed to raise exactly
when more than one distinct combination exists across the records, and to
return the value when every record holds the identical array.  The code's
array branch instead iterates over `range(len(prop.shape))`, i.e. it inspects
only the element values WITHIN records 0 and 1 — contradicting its own
docstring ("It will return the unique combination of all array elements ...").
On a table whose three records all hold the identical image angulation
`(1.0, 2.0, 3.0)`, every record equals `[1, 2, 3]`, yet the query raises the
varying-property `PARRECError` because record 0 has three distinct element
values. -/
theorem c7_uniform_array_raises :
    (∀ row ∈ ([[1, 2, 3], [1, 2, 3], [1, 2, 3]] : List (List ℚ)),
      row = [1, 2, 3]) ∧
    uniqueArrayProp ([[1, 2, 3], [1, 2, 3], [1, 2, 3]] : List (List ℚ)) =
      Except.error Err.parrecError :=
  ⟨by decide, by decide⟩

/-- General information used by the C8 theorems (two slices, one dynamic). -/
def c8info : GeneralInfo :=
  ⟨2, 1, 1, 1, 2000, ![1, 1, 1], ![0, 0, 0], ![4, 6, 8], ![0, 0, 0]⟩

/-- An image-definition table with a uniform pixel size of 32 bits. -/
def c8defs : ImageDefs :=
  ⟨[1, 2], [1, 1], [32, 32], [[64, 64], [64, 64]], [0, 0], [1, 1], [1, 1],
    [[0, 0, 0], [0, 0, 0]], [2, 2], [0, 0], [[1, 1], [1, 1]], [1, 1]⟩

/-- C8 counterexample: a header whose uniform `image pixel size` is 32 — a
value other than 8 or 16 — constructs successfully (numpy's type dictionary
has an `int32` entry), so not every bit depth outside {8, 16} is rejected. -/
theorem c8_counterexample :
    PARRECHeader_init c8info c8defs =
      Except.ok ⟨"int32", [64, 64, 2], [1, 1, 2]⟩ := by decide

/-- C8 (amended): construction fails, with the `KeyError` from the
`np.typeDict['int' + str(size)]` lookup, exactly for uniform pixel sizes where
`'int' + str(size)` is no numpy type-dictionary key — any value outside
{0, 8, 16, 32, 64}, e.g. 24 — and the constructor takes no flag that could
suppress this.  (Pixel sizes 32 and 64 are accepted, contrary to the claim —
see the counterexample — and size 0 resolves to `intp` through numpy's `int0`
alias.) -/
theorem c8_unknown_bitdepth (info : GeneralInfo) (defs : ImageDefs) (b : Nat)
    (hne : defs.image_pixel_size ≠ [])
    (hall : ∀ x ∈ defs.image_pixel_size, x = b)
    (hb : ¬(b = 0 ∨ b = 8 ∨ b = 16 ∨ b = 32 ∨ b = 64)) :
    PARRECHeader_init info defs = Except.error Err.keyError := by
  have e1 := uniqueScalarProp_const hne hall
  have hb0 : ¬ b = 0 := fun h => hb (Or.inl h)
  have hbrest : ¬(b = 8 ∨ b = 16 ∨ b = 32 ∨ b = 64) := fun h => hb (Or.inr h)
  simp [PARRECHeader_init, e1, npTypeDictInt, hb0, hbrest, except_bind_ok,
    except_bind_error]

/-- An image-definition table with a uniform pixel size of 24 bits. -/
def c8defs24 : ImageDefs :=
  { c8defs with image_pixel_size := [24, 24] }

/-- Witness for the amended C8 at pixel size 24. -/
theorem c8_unknown_bitdepth_witness :
    PARRECHeader_init c8info c8defs24 = Except.error Err.keyError :=
  c8_unknown_bitdepth c8info c8defs24 24 (by decide) (by decide) (by decide)

/-- Truncation of the image-definition table: `image_defs[:-1]`, the table
with its final slice record removed (every column loses its last entry). -/
def dropLastRecord (defs : ImageDefs) : ImageDefs :=
  ⟨defs.slice_number.dropLast, defs.dynamic_scan_number.dropLast,
    defs.image_pixel_size.dropLast, defs.recon_resolution.dropLast,
    defs.rescale_intercept.dropLast, defs.rescale_slope.dropLast,
    defs.scale_slope.dropLast, defs.image_angulation.dropLast,
    defs.slice_thickness.dropLast, defs.slice_gap.dropLast,
    defs.pixel_spacing.dropLast, defs.slice_orientation.dropLast⟩

/-- General information of a two-dynamic, two-slice acquisition (for C2). -/
def c2info : GeneralInfo :=
  ⟨2, 2, 1, 1, 2000, ![1, 1, 1], ![0, 0, 0], ![4, 6, 8], ![0, 0, 0]⟩

/-- A well-formed image-definition table for `c2info`: two complete dynamics
of two slices each (slice numbers `[1, 2, 1, 2]`, dynamic scan numbers
`[1, 1, 2, 2]`), uniform in every remaining column. -/
def c2defs : ImageDefs :=
  ⟨[1, 2, 1, 2], [1, 1, 2, 2], [16, 16, 16, 16],
    [[64, 64], [64, 64], [64, 64], [64, 64]], [0, 0, 0, 0], [1, 1, 1, 1],
    [1, 1, 1, 1], [[0, 0, 0], [0, 0, 0], [0, 0, 0], [0, 0, 0]], [2, 2, 2, 2],
    [0, 0, 0, 0], [[1, 1], [1, 1], [1, 1], [1, 1]], [1, 1, 1, 1]⟩

/-- C2 (code bug): `PARRECHeader.__init__` in this module takes no
`permit_truncated` flag and performs no volume-completeness check — its only
structural test is that the number of distinct slice numbers equals
`max_slices` — so removing the final record of the last volume of a
well-formed multi-volume table is not detected: the truncated table
constructs silently (no `PARRECError`, no warning) and reports the very same
four-dimensional data shape as the intact table, because the sets of distinct
slice numbers and of distinct dynamic scan numbers are unchanged.  The
repository's own truncation tests (`test_parrec.py`, `test_truncations`)
demand the claimed error/flag behaviour and cannot even run against this
module. -/
theorem c2_truncation_undetected :
    PARRECHeader_init c2info c2defs =
      Except.ok ⟨("int16"), [64, 64, 2, 2], [1, 1, 2, 2]⟩ ∧
    PARRECHeader_init c2info (dropLastRecord c2defs) =
      Except.ok ⟨("int16"), [64, 64, 2, 2], [1, 1, 2, 2]⟩ :=
  ⟨by decide, by decide⟩

theorem rotX_one : rotX 1 0 = one3 := by decide

theorem rotY_one : rotY 1 0 = one3 := by decide

theorem rotZ_one : rotZ 1 0 = one3 := by decide

theorem mul3_one_left (A : Mat3) : mul3 one3 A = A := by
  funext i j
  fin_cases i <;> simp [mul3, one3]

theorem mul3_one_right (A : Mat3) : mul3 A one3 = A := by
  funext i j
  fin_cases j <;> simp [mul3, one3]

/-- The general information of a header with angulation (ap, fh, rl) =
(90°, 0°, 90°): the negated radian angles have cosine/sine (0, -1) on the AP
and RL components. -/
def c3g : GeneralInfo :=
  ⟨2, 1, 1, 1, 2000, ![0, 1, 0], ![-1, 0, -1], ![4, 6, 8], ![0, 0, 0]⟩

/-- A header instance carrying `c3g`. -/
def c3h : HeaderState := ⟨c3g, c8defs, none, [1, 1, 2]⟩

/-- C3 counterexample: at angulation (ap, fh, rl) = (90°, 0°, 90°) the
explicit elementary-matrix product differs from the Euler-angle helper on the
same angles, so the internal-consistency assertion in `get_affine` fails and
affine construction aborts with the geometry-consistency (assertion) error —
refuting the claim that the two rotations agree for every angulation
vector. -/
theorem c3_counterexample :
    rot_r2agui c3g ≠ rot_nibabel c3g ∧
    get_affine c3h "scanner" = Except.error Err.assertionError :=
  ⟨by decide, by decide⟩

/-- C3 (amended): the explicit product `rot_rl * rot_ap * rot_fh` and the
Euler-angle helper `euler2mat(fh, ap, rl)` agree whenever at most one of the
three angulation components is nonzero (the other two have cosine 1 and sine
0) — in particular for zero angulation — so the assertion passes there; for
general oblique angulations the two composition orders differ and `get_affine`
aborts (see the counterexample). -/
theorem c3_rotation_agreement (g : GeneralInfo)
    (h : (g.angCos 0 = 1 ∧ g.angSin 0 = 0 ∧ g.angCos 1 = 1 ∧ g.angSin 1 = 0) ∨
         (g.angCos 0 = 1 ∧ g.angSin 0 = 0 ∧ g.angCos 2 = 1 ∧ g.angSin 2 = 0) ∨
         (g.angCos 1 = 1 ∧ g.angSin 1 = 0 ∧ g.angCos 2 = 1 ∧ g.angSin 2 = 0)) :
    rot_r2agui g = rot_nibabel g := by
  rcases h with ⟨h1, h2, h3, h4⟩ | ⟨h1, h2, h3, h4⟩ | ⟨h1, h2, h3, h4⟩ <;>
    simp [rot_r2agui, rot_nibabel, euler2mat, h1, h2, h3, h4, rotX_one,
      rotY_one, rotZ_one, mul3_one_left, mul3_one_right]

/-- General information with only the FH angulation component nonzero. -/
def c3gw : GeneralInfo :=
  ⟨2, 1, 1, 1, 2000, ![1, 0, 1], ![0, 1, 0], ![4, 6, 8], ![0, 0, 0]⟩

/-- Witness for the amended C3: with only the FH component nonzero, the two
rotation compositions coincide. -/
theorem c3_rotation_agreement_witness : rot_r2agui c3gw = rot_nibabel c3gw :=
  c3_rotation_agreement c3gw (by decide)

/-- A 4x4 matrix that is zero except for a given translation column. -/
def mk_trans (t : Fin 3 → ℚ) : Mat4 :=
  fun i j =>
    if hi : (i : Nat) < 3 then (if (j : Nat) = 3 then t ⟨i, hi⟩ else 0) else 0

theorem mk_affine_add_trans (m : Mat3) (t u : Fin 3 → ℚ) :
    mk_affine m (fun i => t i + u i) = mk_affine m t + mk_trans u := by
  funext i j
  show mk_affine m (fun i => t i + u i) i j = mk_affine m t i j + mk_trans u i j
  by_cases hi : (i : Nat) < 3
  · by_cases hj : (j : Nat) < 3
    · have hj3 : ¬((j : Nat) = 3) := by omega
      simp [mk_affine, mk_trans, hi, hj, hj3]
    · have hj3 : (j : Nat) = 3 := by omega
      simp [mk_affine, mk_trans, hi, hj, hj3]
  · by_cases hj : (j : Nat) < 3 <;> simp [mk_affine, mk_trans, hi, hj]

/-- General information with nonzero off-center components (witness data for
C4): `off_center` in (ap, fh, rl) order is (1, 0, 2). -/
def c4gw : GeneralInfo :=
  ⟨2, 1, 1, 1, 2000, ![1, 1, 1], ![0, 0, 0], ![4, 6, 8], ![1, 0, 2]⟩

/-- A header instance carrying `c4gw`. -/
def c4hw : HeaderState := ⟨c4gw, c8defs, none, [1, 1, 2]⟩

/-- The header instance after the slice orientation memo has been filled. -/
def c4hst : HeaderState := ⟨c4gw, c8defs, some ("transversal"), [1, 1, 2]⟩

/-- The affine of `c4hw` with origin at the field-of-view center. -/
def c4A : Mat4 :=
  ![![-1, 0, 0, 7 / 2], ![0, -1, 0, 3 / 2], ![0, 0, 2, -2], ![0, 0, 0, 1]]

/-- General information whose only nonzero off-center component is FH. -/
def c4gfh : GeneralInfo :=
  ⟨2, 1, 1, 1, 2000, ![1, 1, 1], ![0, 0, 0], ![4, 6, 8], ![0, 5, 0]⟩

/-- A header instance carrying `c4gfh`. -/
def c4hfh : HeaderState := ⟨c4gfh, c8defs, none, [1, 1, 2]⟩

/-- Recover a computed `Except` value from a Boolean comparison under
`Except.map` (used to evaluate the affine pipeline on concrete inputs). -/
theorem except_eq_ok_of_map {α : Type} [DecidableEq α] (e : Except Err α) (t : α)
    (h : e.map (fun x => decide (x = t)) = Except.ok true) : e = Except.ok t := by
  cases e with
  | error err => simp [Except.map] at h
  | ok x =>
    simp [Except.map] at h
    rw [h]

/-- The memo-filled instance corresponding to `c4hfh`. -/
def c4hfhst : HeaderState := ⟨c4gfh, c8defs, some ("transversal"), [1, 1, 2]⟩

/-- C4 counterexample: a header whose global off-center vector is nonzero
exactly in the FH component yields identical affines for
`origin='scanner'` and `origin='fov'` — the code multiplies the permuted
off-center vector by `[-1, -1, 0]`, zeroing the FH component, so not every
nonzero component of the permuted off-center vector changes the
translation. -/
theorem c4_counterexample :
    c4gfh.off_center 1 = 5 ∧
    get_affine c4hfh "scanner" = get_affine c4hfh "fov" := by
  have h1 : get_affine c4hfh "scanner" = Except.ok (c4A, c4hfhst) :=
    except_eq_ok_of_map _ _ (by decide)
  have h2 : get_affine c4hfh "fov" = Except.ok (c4A, c4hfhst) :=
    except_eq_ok_of_map _ _ (by decide)
  exact ⟨by decide, by rw [h1, h2]⟩

/-- C4 (amended): `get_affine(origin='scanner')` returns the same matrix as
`get_affine(origin='fov')` except for the translation column, to which it
adds the off-center vector reordered from (ap, fh, rl) to (rl, ap, fh) order
and multiplied componentwise by `(-1, -1, 0)`: the RL and AP components are
sign-flipped into the (x, y) convention and each changes the translation when
nonzero, while the FH component is zeroed and never affects the result. -/
theorem c4_scanner_offset (h : HeaderState) (A : Mat4) (hst : HeaderState)
    (hfov : get_affine h "fov" = Except.ok (A, hst)) :
    get_affine h "scanner" =
      Except.ok (A + mk_trans (iso_offset h.general_info), hst) ∧
    iso_offset h.general_info =
      ![-(h.general_info.off_center 2), -(h.general_info.off_center 0), 0] ∧
    iso_offset h.general_info 2 = 0 ∧
    ((h.general_info.off_center 2 ≠ 0 ∨ h.general_info.off_center 0 ≠ 0) →
      get_affine h "scanner" ≠ Except.ok (A, hst)) := by
  rcases hcore : affine_core h with e | core
  · simp only [get_affine, hcore, except_bind_error] at hfov
    simp at hfov
  obtain ⟨scaled, trans, h2⟩ := core
  simp only [get_affine, hcore, except_bind_ok] at hfov
  simp at hfov
  obtain ⟨hA, hh⟩ := hfov
  have hscan : get_affine h "scanner" =
      Except.ok (mk_affine scaled
        (fun i => trans i + iso_offset h.general_info i), h2) := by
    simp only [get_affine, hcore, except_bind_ok]
    simp
  have hscan2 : get_affine h "scanner" =
      Except.ok (A + mk_trans (iso_offset h.general_info), hst) := by
    rw [hscan, mk_affine_add_trans, hA, hh]
  refine ⟨hscan2, rfl, rfl, ?_⟩
  intro hnz heq
  rw [hscan2] at heq
  simp only [Except.ok.injEq, Prod.mk.injEq] at heq
  have hT0 : mk_trans (iso_offset h.general_info) = 0 :=
    add_right_eq_self.mp heq.1
  rcases hnz with hrl | hap
  · have h1 : mk_trans (iso_offset h.general_info) 0 3 = 0 := by rw [hT0]; rfl
    simp [mk_trans, iso_offset] at h1
    exact hrl (h1 (by decide))
  · have h1 : mk_trans (iso_offset h.general_info) 1 3 = 0 := by rw [hT0]; rfl
    simp [mk_trans, iso_offset] at h1
    exact hap (h1 (by decide))

/-- Witness for the amended C4 at a concrete header with RL off-center 2 and
AP off-center 1. -/
theorem c4_scanner_offset_witness :
    get_affine c4hw "scanner" =
      Except.ok (c4A + mk_trans (iso_offset c4hw.general_info), c4hst) ∧
    iso_offset c4hw.general_info =
      ![-(c4hw.general_info.off_center 2), -(c4hw.general_info.off_center 0), 0] ∧
    iso_offset c4hw.general_info 2 = 0 ∧
    ((c4hw.general_info.off_center 2 ≠ 0 ∨ c4hw.general_info.off_center 0 ≠ 0) →
      get_affine c4hw "scanner" ≠ Except.ok (c4A, c4hst)) :=
  c4_scanner_offset c4hw c4A c4hst (except_eq_ok_of_map _ _ (by decide))

theorem gso_of_memo {h : HeaderState} {w : String}
    (hm : h.slice_orientation_memo = some w) :
    get_slice_orientation h = Except.ok (w, h) := by
  unfold get_slice_orientation
  rw [hm]

/-- C9 (amended): the slice orientation label is memoized — once a query has
returned `(v, h1)`, the memo slot of `h1` holds `v`, and every later query on
the instance returns the cached `v` even after `general_info` and
`image_defs` are reassigned in place.  The affine, by contrast, is recomputed
on every call and is not cached (see the counterexample). -/
theorem c9_orientation_memoized (h : HeaderState) (v : String) (h1 : HeaderState)
    (hq : get_slice_orientation h = Except.ok (v, h1)) :
    ∀ (g : GeneralInfo) (d : ImageDefs),
      get_slice_orientation (set_general_info (set_image_defs h1 d) g) =
        Except.ok (v, set_general_info (set_image_defs h1 d) g) := by
  intro g d
  have hmemo : h1.slice_orientation_memo = some v := by
    unfold get_slice_orientation at hq
    rcases hm : h.slice_orientation_memo with _ | w
    · rw [hm] at hq
      rcases hc : compute_slice_orientation h.image_defs with e | u
      · rw [hc] at hq
        simp at hq
      · rw [hc] at hq
        simp at hq
        obtain ⟨hu, hh1⟩ := hq
        rw [← hh1]
        simp [hu]
    · rw [hm] at hq
      simp at hq
      obtain ⟨hw, hh1⟩ := hq
      rw [← hh1, hm, hw]
  simp [get_slice_orientation, set_general_info, set_image_defs, hmemo]

/-- A freshly constructed header instance (memo slot empty). -/
def c9h : HeaderState := ⟨c8info, c8defs, none, [1, 1, 2]⟩

/-- The same instance after its first `get_slice_orientation` query. -/
def c9h1 : HeaderState := ⟨c8info, c8defs, some ("transversal"), [1, 1, 2]⟩

/-- A mutated image-definition table whose slice orientation codes now say
sagital. -/
def c9defsB : ImageDefs := { c8defs with slice_orientation := [2, 2] }

/-- A mutated general-information mapping. -/
def c9gB : GeneralInfo := { c8info with max_slices := 3 }

/-- Witness for the amended C9: after the first query, mutating both
`general_info` and `image_defs` in place (the new table even encodes a
different orientation) still returns the cached label. -/
theorem c9_orientation_memoized_witness :
    get_slice_orientation (set_general_info (set_image_defs c9h1 c9defsB) c9gB) =
      Except.ok (("transversal"),
        set_general_info (set_image_defs c9h1 c9defsB) c9gB) :=
  c9_orientation_memoized c9h ("transversal") c9h1 (by decide) c9gB c9defsB

/-- General information with RL off-center 1. -/
def c9g1 : GeneralInfo :=
  ⟨2, 1, 1, 1, 2000, ![1, 1, 1], ![0, 0, 0], ![4, 6, 8], ![0, 0, 1]⟩

/-- The same mapping with the RL off-center mutated to 3. -/
def c9g2 : GeneralInfo := { c9g1 with off_center := ![0, 0, 3] }

/-- A header instance over `c9g1` whose memo slots are already populated (the
state after earlier queries). -/
def c9state : HeaderState := ⟨c9g1, c8defs, some ("transversal"), [1, 1, 2]⟩

/-- The affine of `c9state` for the scanner origin. -/
def c9A1 : Mat4 :=
  ![![-1, 0, 0, 5 / 2], ![0, -1, 0, 3 / 2], ![0, 0, 2, -2], ![0, 0, 0, 1]]

/-- The affine after the in-place mutation of the off-center vector. -/
def c9A2 : Mat4 :=
  ![![-1, 0, 0, 1 / 2], ![0, -1, 0, 3 / 2], ![0, 0, 2, -2], ![0, 0, 0, 1]]

/-- C9 counterexample: the affine is not cached.  On one and the same
instance, a `get_affine` query after an in-place mutation of `general_info`
returns a different matrix than the query before the mutation — the returned
value changes even though every memo slot is untouched, refuting the claim
that the affine is computed at most once and frozen for the instance's
lifetime. -/
theorem c9_affine_not_cached :
    get_affine c9state "scanner" = Except.ok (c9A1, c9state) ∧
    get_affine (set_general_info c9state c9g2) "scanner" =
      Except.ok (c9A2, set_general_info c9state c9g2) ∧
    c9A1 ≠ c9A2 :=
  ⟨except_eq_ok_of_map _ _ (by decide), except_eq_ok_of_map _ _ (by decide),
    by decide⟩

/-- C10: `from_header` raises a `PARRECError` on `None` and on any header
that is not exactly a `PARRECHeader`; on a `PARRECHeader` it returns a copy —
a fresh object (a new store cell, distinct from the input's) whose
`general_info` and `image_defs` contents equal the input's, and writing
through either reference afterwards never affects the other. -/
theorem c10_from_header (st : HeaderStore) (r : Nat)
    (cell : GeneralInfo × ImageDefs) (hd : HeaderData)
    (hr : st[r]? = some cell)
    (hinit : PARRECHeader_init cell.1 cell.2 = Except.ok hd) :
    from_header st none = Except.error Err.parrecError ∧
    from_header st (some FromHeaderArg.otherHeader) =
      Except.error Err.parrecError ∧
    from_header st (some (FromHeaderArg.parrecRef r)) =
      Except.ok (st ++ [cell], st.length) ∧
    st.length ≠ r ∧
    (st ++ [cell])[st.length]? = some cell ∧
    (st ++ [cell])[r]? = some cell ∧
    (∀ c2, ((st ++ [cell]).set st.length c2)[r]? = some cell) ∧
    (∀ c2, ((st ++ [cell]).set r c2)[st.length]? = some cell) := by
  have hrlt : r < st.length := by
    by_contra hge
    rw [List.getElem?_eq_none (by omega)] at hr
    cases hr
  have happ : (st ++ [cell])[r]? = some cell := by
    rw [List.getElem?_append, if_pos hrlt]
    exact hr
  have hlen : (st ++ [cell])[st.length]? = some cell := by
    rw [List.getElem?_append, if_neg (lt_irrefl st.length)]
    simp
  refine ⟨rfl, rfl, ?_, by omega, hlen, happ, ?_, ?_⟩
  · show (match st[r]? with
      | none => Except.error Err.indexError
      | some cell =>
        match PARRECHeader_init cell.1 cell.2 with
        | Except.error e => Except.error e
        | Except.ok _ => Except.ok (st ++ [cell], st.length)) =
      Except.ok (st ++ [cell], st.length)
    rw [hr]
    simp [hinit]
  · intro c2
    rw [List.getElem?_set_ne (by omega)]
    exact happ
  · intro c2
    rw [List.getElem?_set_ne (by omega)]
    exact hlen

/-- Witness for C10 at a concrete one-header store. -/
theorem c10_from_header_witness :
    from_header [(c8info, c8defs)] none = Except.error Err.parrecError ∧
    from_header [(c8info, c8defs)] (some FromHeaderArg.otherHeader) =
      Except.error Err.parrecError ∧
    from_header [(c8info, c8defs)] (some (FromHeaderArg.parrecRef 0)) =
      Except.ok ([(c8info, c8defs)] ++ [(c8info, c8defs)],
        [(c8info, c8defs)].length) ∧
    [(c8info, c8defs)].length ≠ 0 ∧
    ([(c8info, c8defs)] ++
      [(c8info, c8defs)])[[(c8info, c8defs)].length]? = some (c8info, c8defs) ∧
    ([(c8info, c8defs)] ++ [(c8info, c8defs)])[0]? = some (c8info, c8defs) ∧
    (∀ c2, (([(c8info, c8defs)] ++
      [(c8info, c8defs)]).set [(c8info, c8defs)].length c2)[0]? =
        some (c8info, c8defs)) ∧
    (∀ c2, (([(c8info, c8defs)] ++
      [(c8info, c8defs)]).set 0 c2)[[(c8info, c8defs)].length]? =
        some (c8info, c8defs)) :=
  c10_from_header [(c8info, c8defs)] 0 (c8info, c8defs)
    ⟨("int32"), [64, 64, 2], [1, 1, 2]⟩ (by decide) (by decide)
